import Mathlib

/-!
Shallow embedding of the core pipeline of the cf-nlp repository:
the Codeforces request signer (src/lib/cf/sign.ts), the typed client
(`cf`), the rate-limited proxy route (src/app/api/cf/route.ts) and the
aggregation engine (src/lib/analytics/aggregate.ts).

Modelling conventions:
* JS objects used as string-keyed records are modelled as association
  lists in property-insertion order; a property write updates the value
  of an existing key in place and appends a fresh key at the end.
* JS `undefined` for an optional field is modelled with `Option`.
* JS number arithmetic on the values that occur here (integer ratings,
  ranks, counters) is modelled exactly over `Int`/`Rat`; `Math.round`
  is Mathlib's `round` (round half toward positive infinity, which is
  what `Math.round` does).
* `String.prototype.localeCompare` is modelled as code-point
  lexicographic comparison (the `LinearOrder String` order).
* Times are Unix seconds; local-time calendar operations of dayjs are
  modelled in UTC.
-/

namespace CfNlp

/-- JS `x || d` for an optional string `x`: `undefined` and the empty
string are falsy and select the default `d`. -/
def jsOrStr (x : Option String) (d : String) : String :=
  match x with
  | some s => if s = "" then d else s
  | none => d

/-- JS `x || null` for an optional string: the empty string collapses
to `null`. -/
def jsOrNull (x : Option String) : Option String :=
  match x with
  | some s => if s = "" then none else some s
  | none => none

/-- JS object property write `obj[k] = v` on an association list in
property order: update the first occurrence of `k` in place, else
append `(k, v)`. -/
def objSet {α : Type} : List (String × α) → String → α → List (String × α)
  | [], k, v => [(k, v)]
  | e :: rest, k, v => if e.1 = k then (k, v) :: rest else e :: objSet rest k v

/-- JS object property read `obj[k]`, `undefined` when absent. -/
def objGet {α : Type} (l : List (String × α)) (k : String) : Option α :=
  (l.find? (fun e => e.1 == k)).map Prod.snd

/-- JS `Object.fromEntries`: build an object by writing each entry in
order. -/
def objFromEntries {α : Type} (l : List (String × α)) : List (String × α) :=
  l.foldl (fun acc kv => objSet acc kv.1 kv.2) []

/-- Uppercase hexadecimal digit for a value below 16. -/
def hexUpper (n : Nat) : Char :=
  if n < 10 then Char.ofNat (48 + n) else Char.ofNat (55 + n)

/-- UTF-8 bytes of a Unicode scalar value. -/
def utf8Bytes (c : Char) : List Nat :=
  let n := c.toNat
  if n < 128 then [n]
  else if n < 2048 then [192 + n / 64, 128 + n % 64]
  else if n < 65536 then [224 + n / 4096, 128 + (n / 64) % 64, 128 + n % 64]
  else [240 + n / 262144, 128 + (n / 4096) % 64, 128 + (n / 64) % 64, 128 + n % 64]

/-- Characters `encodeURIComponent` leaves unescaped. -/
def isUriUnreserved (c : Char) : Bool :=
  decide (('A' ≤ c ∧ c ≤ 'Z') ∨ ('a' ≤ c ∧ c ≤ 'z') ∨ ('0' ≤ c ∧ c ≤ '9') ∨
    c = '-' ∨ c = '_' ∨ c = '.' ∨ c = '!' ∨ c = '~' ∨ c = '*' ∨ c = '\'' ∨
    c = '(' ∨ c = ')')

/-- Percent-encoding of one character, UTF-8 byte by byte. -/
def pctEncodeChar (c : Char) : List Char :=
  if isUriUnreserved c then [c]
  else (utf8Bytes c).foldr
    (fun b acc => '%' :: hexUpper (b / 16) :: hexUpper (b % 16) :: acc) []

/-- JS `encodeURIComponent`. -/
def encodeURIComponent (s : String) : String :=
  String.mk (s.data.foldr (fun c acc => pctEncodeChar c ++ acc) [])

/-- The comparator of `signCfRequest`: keys ascending, ties broken by
value ascending (`localeCompare` modelled as the lexicographic string
order). -/
def entryLE (a b : String × String) : Prop :=
  if a.1 = b.1 then a.2 ≤ b.2 else a.1 ≤ b.1

instance : DecidableRel entryLE := fun a b => by
  unfold entryLE; infer_instance

instance : IsTotal (String × String) entryLE := ⟨by
  intro a b
  unfold entryLE
  by_cases h : a.1 = b.1
  · simp only [h, if_pos rfl, if_true]
    exact le_total a.2 b.2
  · simp only [if_neg h, if_neg (Ne.symm h)]
    exact le_total a.1 b.1⟩

instance : IsTrans (String × String) entryLE := ⟨by
  intro a b c hab hbc
  unfold entryLE at hab hbc ⊢
  by_cases h1 : a.1 = b.1 <;> by_cases h2 : b.1 = c.1
  · rw [if_pos h1] at hab
    rw [if_pos h2] at hbc
    rw [if_pos (h1.trans h2)]
    exact le_trans hab hbc
  · rw [if_pos h1] at hab
    rw [if_neg h2] at hbc
    rw [if_neg (h1 ▸ h2)]
    exact h1 ▸ hbc
  · rw [if_neg h1] at hab
    rw [if_pos h2] at hbc
    rw [if_neg (fun h => h1 (h.trans h2.symm))]
    exact h2 ▸ hab
  · rw [if_neg h1] at hab
    rw [if_neg h2] at hbc
    have hac : a.1 ≠ c.1 := by
      intro h
      exact h1 (le_antisymm hab (h ▸ hbc))
    rw [if_neg hac]
    exact le_trans hab hbc⟩

instance : IsAntisymm (String × String) entryLE := ⟨by
  intro a b hab hba
  obtain ⟨a1, a2⟩ := a
  obtain ⟨b1, b2⟩ := b
  unfold entryLE at hab hba
  by_cases h : a1 = b1
  · subst h
    rw [if_pos rfl] at hab hba
    have hv : a2 = b2 := le_antisymm hab hba
    rw [hv]
  · rw [if_neg h] at hab
    rw [if_neg (Ne.symm h)] at hba
    exact absurd (le_antisymm hab hba) h⟩

/-- Caller parameters of `signCfRequest` after dropping `undefined`
values and stringifying the rest (values are modelled already as
strings, `none` models `undefined`). -/
def cfFilteredParams (params : List (String × Option String)) : List (String × String) :=
  params.filterMap (fun kv => kv.2.map (fun v => (kv.1, v)))

/-- The `baseParams` object of `signCfRequest`: the filtered caller
params spread into an object literal, then `apiKey` and `time`
written. -/
def cfBaseParams (params : List (String × Option String)) (apiKey : String)
    (timeSec : Int) : List (String × String) :=
  objSet (objSet (objFromEntries (cfFilteredParams params)) ("apiKey") apiKey)
    ("time") (toString timeSec)

/-- The `sorted` entry list of `signCfRequest`. -/
def cfSortedParams (params : List (String × Option String)) (apiKey : String)
    (timeSec : Int) : List (String × String) :=
  List.insertionSort entryLE (cfBaseParams params apiKey timeSec)

/-- The encoded public query string of `signCfRequest`. -/
def cfQuery (params : List (String × Option String)) (apiKey : String)
    (timeSec : Int) : String :=
  String.intercalate ("&")
    ((cfSortedParams params apiKey timeSec).map
      (fun kv => kv.1 ++ "=" ++ encodeURIComponent kv.2))

/-- The signature base string `sigBase` of `signCfRequest`. -/
def cfSigBase (methodName : String) (params : List (String × Option String))
    (apiKey apiSecret : String) (timeSec : Int) (nonce : String) : String :=
  nonce ++ "/" ++ methodName ++ "?" ++
    String.intercalate ("&")
      ((cfSortedParams params apiKey timeSec).map (fun kv => kv.1 ++ "=" ++ kv.2)) ++
    "#" ++ apiSecret

/-- The `apiSig` token of `signCfRequest`; `hash` abstracts the
`crypto` SHA-512 hex-digest primitive. -/
def cfApiSig (hash : String → String) (methodName : String)
    (params : List (String × Option String)) (apiKey apiSecret : String)
    (timeSec : Int) (nonce : String) : String :=
  nonce ++ hash (cfSigBase methodName params apiKey apiSecret timeSec nonce)

/-- `signCfRequest` from src/lib/cf/sign.ts. The credentials come from
the environment (absent is modelled as the empty string, which is what
the falsy check rejects); `timeSec` is `Math.floor(Date.now() / 1000)`
and `nonce` the random 6-hex-char prefix, both passed explicitly. -/
def signCfRequest (hash : String → String) (apiKey apiSecret : String)
    (timeSec : Int) (nonce : String) (methodName : String)
    (params : List (String × Option String)) : Except String String :=
  if apiKey = "" ∨ apiSecret = "" then Except.error ("Missing CF_KEY/CF_SECRET")
  else Except.ok
    ("https://codeforces.com/api/" ++ methodName ++ "?" ++
      cfQuery params apiKey timeSec ++ "&apiSig=" ++
      cfApiSig hash methodName params apiKey apiSecret timeSec nonce)

/-- Upstream response envelope as the typed client parses it:
`status`, optional `comment`, optional `result` (JSON fields may be
absent). -/
structure CfEnvelope (α : Type) where
  status : String
  comment : Option String
  result : Option α
deriving DecidableEq

/-- Whether an HTTP status code satisfies `Response.ok` (2xx). -/
def httpOk (status : Nat) : Bool :=
  decide (200 ≤ status ∧ status ≤ 299)

/-- The typed client `cf` (src/lib/cf/client.ts): given the HTTP status
of the proxy response and the parsed JSON envelope, it throws on
non-2xx before looking at the envelope, throws the envelope comment
(JS `||`-defaulted) when `status` is not `"OK"`, and returns `result`
otherwise. Thrown `Error`s are modelled as `Except.error` of the
message. -/
def cfClient {α : Type} (resStatus : Nat) (env : CfEnvelope α) :
    Except String (Option α) :=
  if httpOk resStatus = false then
    Except.error ("CF error: " ++ toString resStatus)
  else if env.status ≠ "OK" then
    Except.error (jsOrStr env.comment ("CF API failed"))
  else Except.ok env.result

/-- Body of a response produced by the /api/cf route handler. -/
inductive RouteBody
  | missingMethod
  | upstream (body : String)
  | errorMsg (msg : String)
deriving DecidableEq

/-- Result of one invocation of the route handler: the new value of the
module-level `lastCallTs` plus the HTTP response. -/
structure RouteOut where
  lastCallTs : Int
  status : Nat
  body : RouteBody
deriving DecidableEq

/-- `GET` handler of src/app/api/cf/route.ts as a state transition on
the module-level `lastCallTs`. The pre-dispatch rate-limit sleep only
delays and never touches the stored state, so it does not appear in the
transition. `now1` is the `Date.now()` value read after the upstream
fetch resolves; `outcome` is the combined result of `signCfRequest`
plus the upstream `fetch` (an exception message, or the upstream status
and body). In the source, `lastCallTs = Date.now()` sits inside the
`try` block after the fetch, and the `catch` branch returns without
writing it. -/
def routeGET (lastCallTs : Int) (now1 : Int) (method : Option String)
    (outcome : Except String (Nat × String)) : RouteOut :=
  match method with
  | none => ⟨lastCallTs, 400, RouteBody.missingMethod⟩
  | some _ =>
    match outcome with
    | Except.ok (st, body) => ⟨now1, st, RouteBody.upstream body⟩
    | Except.error e => ⟨lastCallTs, 500, RouteBody.errorMsg e⟩

/-- Fields of the upstream user record consumed by `fetchProfile`. -/
structure CfUser where
  handle : String
  rank : Option String
  rating : Option Int
  maxRating : Option Int
  maxRank : Option String
  contribution : Option Int
  registrationTimeSeconds : Int
  friendOfCount : Option Int
deriving DecidableEq

/-- The `ProfileAggregate` output type of src/lib/analytics/aggregate.ts. -/
structure ProfileAggregate where
  handle : String
  title : Option String
  currentRating : Option Int
  maxRating : Option Int
  maxRank : Option String
  contribution : Int
  registrationTime : Int
  customScore : Int
deriving DecidableEq

/-- `computeCustomScore`: `Math.round(rating * 0.9 + contests * 0.1)`
with `??`-defaults of 0, where `contests` is `user.friendOfCount`.
Number arithmetic is modelled exactly over `Rat`; `Math.round` is
`round` (half toward positive infinity). -/
def computeCustomScore (user : CfUser) : Int :=
  let rating : Int := user.rating.getD 0
  let contests : Int := user.friendOfCount.getD 0
  round ((rating : ℚ) * (9 / 10) + (contests : ℚ) * (1 / 10))

/-- `fetchProfile` minus the network call: the pure mapping from the
fetched user record to the profile aggregate. -/
def fetchProfile (user : CfUser) : ProfileAggregate :=
  { handle := user.handle
  , title := jsOrNull user.rank
  , currentRating := user.rating
  , maxRating := user.maxRating
  , maxRank := user.maxRank
  , contribution := user.contribution.getD 0
  , registrationTime := user.registrationTimeSeconds
  , customScore := computeCustomScore user }

/-- Raw contest record from `contest.list` as the filter reads it. -/
structure RawContest where
  name : String
  phase : String
  startTimeSeconds : Int
  durationSeconds : Int
deriving DecidableEq

/-- The `ContestEntry` output type of the aggregation module. -/
structure ContestEntry where
  name : String
  division : Option String
  startTimeSeconds : Int
  durationSeconds : Int
deriving DecidableEq

/-- JS regex whitespace class membership for the characters that occur
in contest names (`\s`). -/
def isJsWhitespace (c : Char) : Bool :=
  decide (c = ' ' ∨ c = '\t' ∨ c = '\n' ∨ c = '\r')

/-- Drop leading whitespace (the `\s*` of the division regex). -/
def divSkipWs : List Char → List Char
  | [] => []
  | c :: r => if isJsWhitespace c then divSkipWs r else c :: r

/-- Try to match `/Div\.?\s*(\d)/i` at the head of the character list,
returning the `Div.{digit}` label on success. -/
def divTryAt : List Char → Option String
  | d :: i :: v :: rest =>
    if d.toLower = 'd' ∧ i.toLower = 'i' ∧ v.toLower = 'v' then
      let rest1 := match rest with
        | '.' :: r => r
        | r => r
      match divSkipWs rest1 with
      | c :: _ => if '0' ≤ c ∧ c ≤ '9' then some (String.mk ['D', 'i', 'v', '.', c]) else none
      | [] => none
    else none
  | _ => none

/-- Scan for the first position where the division regex matches. -/
def divScan : List Char → Option String
  | [] => none
  | c :: rest =>
    match divTryAt (c :: rest) with
    | some d => some d
    | none => divScan rest

/-- `extractDivision`: first match of `/Div\.?\s*(\d)/i` rendered as
`Div.{digit}`, else `null`. -/
def extractDivision (name : String) : Option String :=
  divScan name.data

/-- `fetchUpcomingContests` minus the network call: filter by phase
`"BEFORE"` and strict future start, `slice(0, 20)`, then map to
`ContestEntry`. The source applies no sort. -/
def fetchUpcomingContests (now : Int) (list : List RawContest) : List ContestEntry :=
  ((list.filter (fun c => decide (c.phase = "BEFORE" ∧ now < c.startTimeSeconds))).take 20).map
    (fun c => ⟨c.name, extractDivision c.name, c.startTimeSeconds, c.durationSeconds⟩)

/-- Rating-change entry from `user.rating`. -/
structure RatingEntry where
  contestName : String
  contestId : Int
  ratingUpdateTimeSeconds : Int
  rank : Int
  oldRating : Int
  newRating : Int
deriving DecidableEq

/-- The summary part of `fetchRatingHistory`'s output. -/
structure RatingSummary where
  total : Nat
  bestRank : Option Int
  avgDelta : Option Int
deriving DecidableEq

/-- `fetchRatingHistory` minus the network call: entry count, null-seeded
minimum-rank reduce, and `Math.round` of the mean delta guarded by the
truthiness of `total`. -/
def fetchRatingHistory (entries : List RatingEntry) : RatingSummary × List RatingEntry :=
  ({ total := entries.length
   , bestRank := entries.foldl
      (fun acc e =>
        match acc with
        | none => some e.rank
        | some a => some (min a e.rank)) none
   , avgDelta :=
      if entries.length = 0 then none
      else some (round
        (((entries.foldl (fun s e => s + (e.newRating - e.oldRating)) 0 : Int) : ℚ) /
          (entries.length : ℚ))) }
  , entries)

/-- Problem reference inside a submission. -/
structure Problem where
  contestId : Int
  index : String
  rating : Option Int
deriving DecidableEq

/-- Submission record fields consumed by the aggregation functions. -/
structure Submission where
  creationTimeSeconds : Int
  verdict : Option String
  programmingLanguage : Option String
  problem : Problem
deriving DecidableEq

/-- The `SubmissionStats` output type. -/
structure SubmissionStats where
  total : Nat
  verdictCounts : List (String × Nat)
  languages : List (String × Nat)
  accepted : Nat
deriving DecidableEq

/-- JS counter map increment `m[k] = (m[k] || 0) + 1`. -/
def bumpCount (m : List (String × Nat)) (k : String) : List (String × Nat) :=
  objSet m k ((objGet m k).getD 0 + 1)

/-- `fetchSubmissionOverview` minus the network call: one pass tallying
verdicts, languages and accepted count, with falsy fields defaulted to
the sentinel labels. -/
def fetchSubmissionOverview (subs : List Submission) : SubmissionStats :=
  let st := subs.foldl
    (fun (st : SubmissionStats) (s : Submission) =>
      let v := jsOrStr s.verdict ("UNKNOWN")
      let lang := jsOrStr s.programmingLanguage ("Unknown")
      { st with
        verdictCounts := bumpCount st.verdictCounts v
        languages := bumpCount st.languages lang
        accepted := if v = "OK" then st.accepted + 1 else st.accepted })
    ({ total := 0, verdictCounts := [], languages := [], accepted := 0 })
  { st with total := subs.length }

/-- Bucket record of `ProblemDifficulty`; the numeric source keys
`'1100_1399'` etc. are prefixed with `b` to form legal identifiers. -/
structure DiffBuckets where
  lt1100 : Nat
  b1100_1399 : Nat
  b1400_1699 : Nat
  b1700_1999 : Nat
  ge2000 : Nat
deriving DecidableEq

/-- The `ProblemDifficulty` output type. -/
structure ProblemDifficulty where
  totalSolved : Nat
  highestSolvedRating : Option Int
  buckets : DiffBuckets
deriving DecidableEq

/-- The dedup key `` `${contestId}-${index}` ``. -/
def problemKey (p : Problem) : String :=
  toString p.contestId ++ "-" ++ p.index

/-- One bucket increment by rating range. -/
def bucketAdd (b : DiffBuckets) (r : Int) : DiffBuckets :=
  if r < 1100 then { b with lt1100 := b.lt1100 + 1 }
  else if r < 1400 then { b with b1100_1399 := b.b1100_1399 + 1 }
  else if r < 1700 then { b with b1400_1699 := b.b1400_1699 + 1 }
  else if r < 2000 then { b with b1700_1999 := b.b1700_1999 + 1 }
  else { b with ge2000 := b.ge2000 + 1 }

/-- `fetchProblemDifficulty` minus the network call. First pass: record
every key with an `"OK"` submission (the `solved` object is modelled by
its key list). Second pass: for every submission whose key is marked
and whose verdict is `"OK"`, bump `totalSolved` and, when the problem
has a rating, the running maximum and the rating bucket. The source
never unmarks a key, so each `"OK"` submission is counted. -/
def fetchProblemDifficulty (subs : List Submission) : ProblemDifficulty :=
  let solved : List String := subs.foldl
    (fun acc s =>
      if s.verdict = some ("OK") then
        (if acc.contains (problemKey s.problem) then acc else acc ++ [problemKey s.problem])
      else acc) []
  subs.foldl
    (fun st s =>
      if solved.contains (problemKey s.problem) = false ∨ s.verdict ≠ some ("OK") then st
      else
        let st := { st with totalSolved := st.totalSolved + 1 }
        match s.problem.rating with
        | none => st
        | some r =>
          { st with
            highestSolvedRating := some (max (st.highestSolvedRating.getD r) r)
            buckets := bucketAdd st.buckets r })
    ({ totalSolved := 0, highestSolvedRating := none
     , buckets := { lt1100 := 0, b1100_1399 := 0, b1400_1699 := 0, b1700_1999 := 0, ge2000 := 0 } })

/-- Days since 1970-01-01 of a civil date (proleptic Gregorian);
`m` is 1..12, `d` 1..31. `Int.ediv` is floor division for the positive
divisors used throughout the calendar code. -/
def daysFromCivil (y : Int) (m d : Nat) : Int :=
  let y1 : Int := if m ≤ 2 then y - 1 else y
  let era : Int := y1.ediv 400
  let yoe : Int := y1 - era * 400
  let mp : Nat := if 2 < m then m - 3 else m + 9
  let doy : Int := ((153 * mp + 2) / 5 + d - 1 : Nat)
  let doe : Int := yoe * 365 + yoe.ediv 4 - yoe.ediv 100 + doy
  era * 146097 + doe - 719468

/-- Civil date `(year, month, day)` of a day count since 1970-01-01. -/
def civilFromDays (z0 : Int) : Int × Int × Int :=
  let z := z0 + 719468
  let era : Int := z.ediv 146097
  let doe : Int := z - era * 146097
  let yoe : Int := (doe - doe.ediv 1460 + doe.ediv 36524 - doe.ediv 146096).ediv 365
  let y : Int := yoe + era * 400
  let doy : Int := doe - (365 * yoe + yoe.ediv 4 - yoe.ediv 100)
  let mp : Int := (5 * doy + 2).ediv 153
  let d : Int := doy - (153 * mp + 2).ediv 5 + 1
  let m : Int := if mp < 10 then mp + 3 else mp - 9
  (if m ≤ 2 then y + 1 else y, m, d)

/-- Calendar year of an epoch day (the `YYYY` format token). -/
def civilYear (z : Int) : Int := (civilFromDays z).1

/-- ISO day of week, Monday = 1 .. Sunday = 7 (1970-01-01 was a
Thursday). -/
def isoDayOfWeek (e : Int) : Int := (e + 3).emod 7 + 1

/-- The Thursday of the ISO week containing a day. -/
def weekThursday (e : Int) : Int := e + (4 - isoDayOfWeek e)

/-- `isoWeekYear()` of the dayjs isoWeek plugin: the calendar year of
the week's Thursday. -/
def isoWeekYearOfDay (e : Int) : Int := civilYear (weekThursday e)

/-- `isoWeek()` of the dayjs isoWeek plugin: one plus the number of
whole weeks between the week-year's first Thursday and this week's
Thursday, equivalently computed from January 1 of the Thursday's year. -/
def isoWeekOfDay (e : Int) : Int :=
  let th := weekThursday e
  (th - daysFromCivil (civilYear th) 1 1).ediv 7 + 1

/-- Local calendar day of a Unix timestamp, modelled in UTC. -/
def epochDayOfUnix (ts : Int) : Int := ts.ediv 86400

/-- The week id `` `${date.isoWeekYear()}-${date.isoWeek()}` ``. -/
def weekIdOfDay (e : Int) : String :=
  toString (isoWeekYearOfDay e) ++ "-" ++ toString (isoWeekOfDay e)

/-- `dayjs(weekId, 'YYYY-W')` with the customParseFormat plugin absent:
dayjs ignores the format argument and falls back to its default parse
regex, which reads the first digit group as the year and the second
digit group as a MONTH; the day defaults to 1 and `new Date` rolls
months past 11 over into later years. Only applied to the generated
`"isoWeekYear-isoWeek"` ids, whose shape the regex accepts. -/
def jsParseWeekIdDay (s : String) : Int :=
  match s.splitOn ("-") with
  | [ys, ms] =>
    let y : Int := ((ys.toNat?).getD 0 : Nat)
    let mon : Nat := (ms.toNat?).getD 1
    let mi : Nat := mon - 1
    daysFromCivil (y + ((mi / 12 : Nat) : Int)) (mi % 12 + 1) 1
  | _ => 0

/-- The `week` value used by the streak loop:
`dayjs(sortedWeeks[i], 'YYYY-W').isoWeek()`. -/
def parsedIsoWeek (s : String) : Int := isoWeekOfDay (jsParseWeekIdDay s)

/-- The streak fields of the `Activity` output type. -/
structure StreakInfo where
  current : Nat
  longest : Nat
  activeWeeks : Nat
deriving DecidableEq

/-- The `for` loop of the streak computation: `started` is `i > 0`,
`lastWeek` starts at 0, `longest` tracks the maximum of `current`. -/
def streakFold : List String → Bool → Nat → Nat → Int → Nat × Nat
  | [], _, cur, long, _ => (cur, long)
  | w :: rest, started, cur, long, lastWeek =>
    let wk := parsedIsoWeek w
    let cur1 := if started ∧ wk = lastWeek + 1 then cur + 1 else 1
    let long1 := max long cur1
    streakFold rest true cur1 long1 wk

/-- `dayjs().subtract(1, 'week').format('YYYY-W')`: without the
advancedFormat plugin, `W` is not a format token, so the output is the
calendar year of (now minus 7 days) followed by the literal characters
`-W`. -/
def jsPrevWeekYearFormat (nowDay : Int) : String :=
  toString (civilYear (nowDay - 7)) ++ "-W"

/-- The streak part of `fetchActivity` minus the network call: group
submissions into first-seen ISO week ids, sort the ids as JS strings,
run the adjacency loop, then zero `current` unless the last id matches
the current week id or the (misformatted) previous-week string. The
unused local `totalWeeksSinceFirstSubmission` of the source is omitted.
The heatmap, most-productive-week and average outputs are independent
of the streak fields and are not modelled. -/
def fetchActivityStreak (nowDay : Int) (subs : List Submission) : StreakInfo :=
  let weeklyKeys := subs.foldl
    (fun (acc : List String) s =>
      let w := weekIdOfDay (epochDayOfUnix s.creationTimeSeconds)
      if acc.contains w then acc else acc ++ [w]) []
  let sortedWeeks := List.insertionSort (fun a b : String => a ≤ b) weeklyKeys
  if sortedWeeks.isEmpty then { current := 0, longest := 0, activeWeeks := 0 }
  else
    let cl := streakFold sortedWeeks false 0 0 0
    let currentWeekId := weekIdOfDay nowDay
    let lastId := sortedWeeks.getLastD ""
    let cur :=
      if currentWeekId ≠ lastId ∧ jsPrevWeekYearFormat nowDay ≠ lastId then 0 else cl.1
    { current := cur, longest := cl.2, activeWeeks := sortedWeeks.length }

/-- Two `"OK"` submissions for the same problem key
(contestId 1, index "A", rating 1200). -/
def c1FailingInput : List Submission :=
  [ ⟨100, some ("OK"), some ("GNU C++17"), ⟨1, "A", some 1200⟩⟩
  , ⟨200, some ("OK"), some ("GNU C++17"), ⟨1, "A", some 1200⟩⟩ ]

/-- C1: evaluating `fetchProblemDifficulty` at two `"OK"` submissions
for the same problem key: the key is counted twice in `totalSolved` and
twice in its rating bucket, not once as the dedup invariant states —
the second pass never unmarks a counted key. -/
theorem difficulty_counts_duplicate_ok_twice :
    (fetchProblemDifficulty c1FailingInput).totalSolved = 2 ∧
    (fetchProblemDifficulty c1FailingInput).buckets.b1100_1399 = 2 := by
  constructor <;> rfl

/-- Contest list of the C2 example: phases
`["BEFORE","FINISHED","BEFORE"]`, start times
`[now+100, now-100, now+50]` for `now = 1000`. -/
def c2Contests : List RawContest :=
  [ ⟨"Contest A", "BEFORE", 1100, 7200⟩
  , ⟨"Contest B", "FINISHED", 900, 7200⟩
  , ⟨"Contest C", "BEFORE", 1050, 7200⟩ ]

/-- C2 counterexample: on the claim's own example the function returns
the two upcoming contests in upstream order `[now+100, now+50]`, not
ascending by start time `[now+50, now+100]` as claimed — the source
applies no sort. -/
theorem upcoming_contests_not_sorted :
    (fetchUpcomingContests 1000 c2Contests).map (fun e => e.startTimeSeconds) = [1100, 1050] ∧
    ([1100, 1050] : List Int) ≠ [1050, 1100] := by
  constructor
  · rfl
  · decide

/-- C2 amended: the operation keeps exactly the contests whose phase is
`"BEFORE"` and whose start time is strictly after now, preserves the
upstream order (it does not sort), and truncates to at most 20 entries;
on the concrete example the start times come out as
`[now+100, now+50]`. -/
theorem upcoming_contests_filter_truncate :
    (∀ (now : Int) (l : List RawContest),
      fetchUpcomingContests now l =
        ((l.filter (fun c => decide (c.phase = "BEFORE" ∧ now < c.startTimeSeconds))).take 20).map
          (fun c => ⟨c.name, extractDivision c.name, c.startTimeSeconds, c.durationSeconds⟩) ∧
      (fetchUpcomingContests now l).length ≤ 20) ∧
    (fetchUpcomingContests 1000 c2Contests).map (fun e => e.startTimeSeconds) = [1100, 1050] := by
  refine ⟨fun now l => ⟨rfl, ?_⟩, rfl⟩
  unfold fetchUpcomingContests
  rw [List.length_map, List.length_take]
  exact min_le_left _ _

/-- C4 counterexample: a dispatched call whose signing fails (missing
credentials) returns the 500 response but leaves the module-level
`lastCallTs` at its old value 0 instead of updating it to the
completion time 5001 — the failed call does not consume a rate-limit
slot. -/
theorem failed_call_keeps_timestamp :
    (routeGET 0 5001 (some ("user.info"))
      (Except.error ("Missing CF_KEY/CF_SECRET"))).lastCallTs = 0 ∧
    (0 : Int) ≠ 5001 := by
  constructor
  · rfl
  · decide

/-- C4 amended: the last-call timestamp is updated to the post-fetch
time only when signing and the upstream fetch succeed; on a
signing/fetch failure, and on the missing-method 400 path, the stored
timestamp is left unchanged, so failed calls do not consume their
rate-limit slot. -/
theorem gateway_timestamp_update :
    ∀ (st now1 : Int) (m : String) (r : Nat × String) (e : String)
      (o : Except String (Nat × String)),
      (routeGET st now1 (some m) (Except.ok r)).lastCallTs = now1 ∧
      (routeGET st now1 (some m) (Except.error e)).lastCallTs = st ∧
      (routeGET st now1 none o).lastCallTs = st := by
  intro st now1 m r e o
  obtain ⟨rs, rb⟩ := r
  exact ⟨rfl, rfl, rfl⟩

/-- A single submission on Wednesday 2024-01-10 (Unix 1704848400,
ISO week 2 of 2024). -/
def c3Submission : Submission :=
  ⟨1704848400, some ("OK"), some ("GNU C++17"), ⟨1, "A", some 1200⟩⟩

/-- C3: evaluating the streak computation with now on Monday 2024-01-15
(epoch day 19737, ISO week 3) and a single submission in the previous
ISO week: the adjacency loop yields streak 1 and the claim keeps a
streak whose last submission week is the previous ISO week, but the
code forces `current` to 0 — `format('YYYY-W')` renders the literal
string `"2024-W"`, which never equals a week id. -/
theorem streak_zeroed_despite_previous_week :
    fetchActivityStreak 19737 [c3Submission] =
      { current := 0, longest := 1, activeWeeks := 1 } := by
  rfl

/-- C9: aggregating the empty submission list never fails and yields
exactly the zero/null outputs for the submission overview and the
difficulty histogram. -/
theorem empty_submissions_zero_outputs :
    fetchSubmissionOverview [] =
      { total := 0, verdictCounts := [], languages := [], accepted := 0 } ∧
    fetchProblemDifficulty [] =
      { totalSolved := 0, highestSolvedRating := none
      , buckets := { lt1100 := 0, b1100_1399 := 0, b1400_1699 := 0, b1700_1999 := 0, ge2000 := 0 } } := by
  constructor <;> rfl

/-- The null-seeded minimum reduce of `fetchRatingHistory` computes
`List.min?` of the mapped ranks (auxiliary step with a seeded
accumulator). -/
lemma foldl_min_aux (es : List RatingEntry) : ∀ a : Int,
    es.foldl
      (fun acc e =>
        match acc with
        | none => some e.rank
        | some x => some (min x e.rank)) (some a) =
    some ((es.map (fun e => e.rank)).foldl min a) := by
  induction es with
  | nil => intro a; rfl
  | cons e es ih => intro a; exact ih (min a e.rank)

/-- The null-seeded minimum reduce of `fetchRatingHistory` computes
`List.min?` of the mapped ranks. -/
lemma foldl_min_eq_min? (entries : List RatingEntry) :
    entries.foldl
      (fun acc e =>
        match acc with
        | none => some e.rank
        | some x => some (min x e.rank)) none =
    (entries.map (fun e => e.rank)).min? := by
  cases entries with
  | nil => rfl
  | cons e es => exact foldl_min_aux es e.rank

/-- The delta reduce of `fetchRatingHistory` computes the sum of the
mapped deltas. -/
lemma foldl_delta_sum (es : List RatingEntry) : ∀ acc : Int,
    es.foldl (fun s e => s + (e.newRating - e.oldRating)) acc =
    acc + (es.map (fun e => e.newRating - e.oldRating)).sum := by
  induction es with
  | nil => intro acc; simp
  | cons e es ih =>
    intro acc
    rw [List.foldl_cons, ih, List.map_cons, List.sum_cons, add_assoc]

/-- Rating entries of the C7 example: ranks `[12, 3, 50]` and deltas
`[+20, -5, +10]`. -/
def c7Entries : List RatingEntry :=
  [ ⟨"Contest 1", 1, 0, 12, 1500, 1520⟩
  , ⟨"Contest 2", 2, 0, 3, 1520, 1515⟩
  , ⟨"Contest 3", 3, 0, 50, 1515, 1525⟩ ]

/-- C7: the rating summary has `total` = entry count, `bestRank` = the
minimum rank (null when empty) and `avgDelta` = the mean delta rounded
to the nearest integer (null when empty); in particular ranks
`[12, 3, 50]` with deltas `[+20, -5, +10]` give bestRank 3 and
avgDelta 8. -/
theorem rating_summary_spec :
    (∀ entries : List RatingEntry,
      (fetchRatingHistory entries).1 =
        { total := entries.length
        , bestRank := (entries.map (fun e => e.rank)).min?
        , avgDelta :=
            if entries.length = 0 then none
            else some (round
              ((((entries.map (fun e => e.newRating - e.oldRating)).sum : Int) : ℚ) /
                (entries.length : ℚ))) }) ∧
    (fetchRatingHistory c7Entries).1.bestRank = some 3 ∧
    (fetchRatingHistory c7Entries).1.avgDelta = some 8 := by
  refine ⟨fun entries => ?_, ?_, ?_⟩
  · unfold fetchRatingHistory
    rw [foldl_min_eq_min?, foldl_delta_sum, zero_add]
  · rfl
  · show (if (3 : Nat) = 0 then none
      else some (round (((25 : Int) : ℚ) / ((3 : Nat) : ℚ)))) = some 8
    norm_num [round_eq]

/-- C8: the typed client returns the envelope result exactly when the
envelope status is `"OK"`, fails carrying the envelope comment when the
status is any other value, and on a non-2xx HTTP response fails without
consulting the envelope. -/
theorem typed_client_envelope_semantics :
    ∀ (α : Type) (resStatus : Nat) (env : CfEnvelope α),
      (httpOk resStatus = true → env.status = "OK" →
        cfClient resStatus env = Except.ok env.result) ∧
      (∀ c : String, httpOk resStatus = true → env.status ≠ "OK" →
        env.comment = some c → c ≠ "" →
        cfClient resStatus env = Except.error c) ∧
      (httpOk resStatus = false →
        (∀ env2 : CfEnvelope α, cfClient resStatus env = cfClient resStatus env2) ∧
        cfClient resStatus env = Except.error ("CF error: " ++ toString resStatus)) := by
  intro α s env
  refine ⟨?_, ?_, ?_⟩
  · intro hok hst
    simp [cfClient, hok, hst]
  · intro c hok hst hcom hne
    simp [cfClient, hok, hst, hcom, jsOrStr, hne]
  · intro hok
    constructor
    · intro env2
      simp [cfClient, hok]
    · simp [cfClient, hok]

/-- Successful envelope used by the C8 witness. -/
def c8EnvOk : CfEnvelope Nat := ⟨"OK", none, some 7⟩

/-- Failed envelope used by the C8 witness. -/
def c8EnvFail : CfEnvelope Nat :=
  ⟨"FAILED", some ("handles: User with handle x not found"), none⟩

/-- Witness for C8 at concrete statuses and envelopes. -/
theorem typed_client_envelope_semantics_witness :
    httpOk 200 = true ∧ c8EnvFail.status ≠ "OK" ∧ httpOk 500 = false ∧
    cfClient 200 c8EnvOk = Except.ok (some 7) ∧
    cfClient 200 c8EnvFail = Except.error ("handles: User with handle x not found") ∧
    cfClient 500 c8EnvOk = cfClient 500 c8EnvFail :=
  ⟨by decide, by decide, by decide,
    (typed_client_envelope_semantics Nat 200 c8EnvOk).1 (by decide) rfl,
    (typed_client_envelope_semantics Nat 200 c8EnvFail).2.1
      ("handles: User with handle x not found") (by decide) (by decide) rfl (by decide),
    ((typed_client_envelope_semantics Nat 500 c8EnvOk).2.2 (by decide)).1 c8EnvFail⟩

/-- C10: the custom score is `round(0.9 * rating + 0.1 * friendOfCount)`
with missing fields treated as 0 — the secondary engagement signal is
`friendOfCount` — and a user with no rating still receives
`round(0.1 * friendOfCount)` while the profile reports
`currentRating = null`. -/
theorem custom_score_formula :
    ∀ u : CfUser,
      (fetchProfile u).customScore =
        round ((9 / 10 : ℚ) * ((u.rating.getD 0 : Int) : ℚ) +
          (1 / 10 : ℚ) * ((u.friendOfCount.getD 0 : Int) : ℚ)) ∧
      (u.rating = none →
        (fetchProfile u).currentRating = none ∧
        (fetchProfile u).customScore =
          round ((1 / 10 : ℚ) * ((u.friendOfCount.getD 0 : Int) : ℚ))) := by
  intro u
  constructor
  · show computeCustomScore u = _
    unfold computeCustomScore
    exact congrArg round (by ring)
  · intro h
    constructor
    · show u.rating = none
      exact h
    · show computeCustomScore u = _
      unfold computeCustomScore
      rw [h]
      refine congrArg round ?_
      rw [show ((none : Option Int).getD 0) = 0 from rfl]
      push_cast
      ring

/-- User record of the C10 witness: no rating, friendOfCount 37. -/
def c10User : CfUser := ⟨"newbie", none, none, none, none, none, 0, some 37⟩

/-- Witness for C10 at a concrete unrated user. -/
theorem custom_score_formula_witness :
    c10User.rating = none ∧
    (fetchProfile c10User).currentRating = none ∧
    (fetchProfile c10User).customScore =
      round ((1 / 10 : ℚ) * ((c10User.friendOfCount.getD 0 : Int) : ℚ)) :=
  ⟨rfl, ((custom_score_formula c10User).2 rfl).1, ((custom_score_formula c10User).2 rfl).2⟩

/-- Writing a key that is absent appends the pair. -/
lemma objSet_of_not_mem {α : Type} (k : String) (v : α) :
    ∀ l : List (String × α), k ∉ l.map Prod.fst → objSet l k v = l ++ [(k, v)]
  | [], _ => rfl
  | e :: rest, h => by
    have h1 : e.1 ≠ k := by
      intro he
      exact h (by rw [List.map_cons, he]; exact List.mem_cons_self _ _)
    have h2 : k ∉ rest.map Prod.fst := by
      intro hm
      exact h (by rw [List.map_cons]; exact List.mem_cons_of_mem _ hm)
    show (if e.1 = k then (k, v) :: rest else e :: objSet rest k v) = _
    rw [if_neg h1, objSet_of_not_mem k v rest h2]
    rfl

/-- On a duplicate-free object, writing a present key is the pointwise
replacement of that key's entry. -/
lemma objSet_of_mem {α : Type} (k : String) (v : α) :
    ∀ l : List (String × α), (l.map Prod.fst).Nodup → k ∈ l.map Prod.fst →
      objSet l k v = l.map (fun e => if e.1 = k then (k, v) else e)
  | [], _, hm => absurd hm (by simp)
  | e :: rest, hnd, hm => by
    rw [List.map_cons] at hnd hm
    by_cases h1 : e.1 = k
    · show (if e.1 = k then (k, v) :: rest else e :: objSet rest k v) = _
      rw [if_pos h1, List.map_cons, if_pos h1]
      have hk : k ∉ rest.map Prod.fst := h1 ▸ (List.nodup_cons.mp hnd).1
      have hfix : ∀ x ∈ rest, (fun e : String × α => if e.1 = k then (k, v) else e) x = x := by
        intro x hx
        have hxk : x.1 ≠ k := fun hxe => hk (hxe ▸ List.mem_map_of_mem Prod.fst hx)
        simp [hxk]
      rw [List.map_congr_left hfix]
      simp
    · have hm2 : k ∈ rest.map Prod.fst := by
        rcases List.mem_cons.mp hm with h | h
        · exact absurd h.symm h1
        · exact h
      show (if e.1 = k then (k, v) :: rest else e :: objSet rest k v) = _
      rw [if_neg h1, List.map_cons, if_neg h1,
        objSet_of_mem k v rest (List.nodup_cons.mp hnd).2 hm2]

/-- Writing a present key leaves the key sequence unchanged. -/
lemma objSet_map_fst_of_mem {α : Type} (k : String) (v : α) (l : List (String × α))
    (hnd : (l.map Prod.fst).Nodup) (hm : k ∈ l.map Prod.fst) :
    (objSet l k v).map Prod.fst = l.map Prod.fst := by
  rw [objSet_of_mem k v l hnd hm, List.map_map]
  refine List.map_congr_left ?_
  intro x _
  by_cases hx : x.1 = k
  · simp [hx]
  · simp [hx]

/-- Writing an absent key appends it to the key sequence. -/
lemma objSet_map_fst_of_not_mem {α : Type} (k : String) (v : α) (l : List (String × α))
    (h : k ∉ l.map Prod.fst) :
    (objSet l k v).map Prod.fst = l.map Prod.fst ++ [k] := by
  rw [objSet_of_not_mem k v l h, List.map_append]
  rfl

/-- A property write preserves duplicate-freeness of the keys. -/
lemma objSet_nodup_keys {α : Type} (k : String) (v : α) (l : List (String × α))
    (hnd : (l.map Prod.fst).Nodup) : ((objSet l k v).map Prod.fst).Nodup := by
  by_cases hm : k ∈ l.map Prod.fst
  · rw [objSet_map_fst_of_mem k v l hnd hm]
    exact hnd
  · rw [objSet_map_fst_of_not_mem k v l hm]
    rw [List.nodup_append]
    exact ⟨hnd, List.nodup_singleton k, by
      intro a ha hb
      rw [List.mem_singleton] at hb
      exact hm (hb ▸ ha)⟩

/-- A property write sends permuted duplicate-free objects to permuted
objects. -/
lemma objSet_perm {α : Type} (k : String) (v : α) {l₁ l₂ : List (String × α)}
    (hnd : (l₁.map Prod.fst).Nodup) (p : l₁.Perm l₂) :
    (objSet l₁ k v).Perm (objSet l₂ k v) := by
  have pk : (l₁.map Prod.fst).Perm (l₂.map Prod.fst) := p.map Prod.fst
  have hnd2 : (l₂.map Prod.fst).Nodup := pk.nodup_iff.mp hnd
  by_cases hm : k ∈ l₁.map Prod.fst
  · rw [objSet_of_mem k v l₁ hnd hm, objSet_of_mem k v l₂ hnd2 (pk.mem_iff.mp hm)]
    exact p.map _
  · rw [objSet_of_not_mem k v l₁ hm,
      objSet_of_not_mem k v l₂ (fun h => hm (pk.mem_iff.mpr h))]
    exact p.append_right _

/-- Folding property writes of fresh keys over an object appends the
entries in order. -/
lemma foldl_objSet_of_nodup {α : Type} :
    ∀ (l acc : List (String × α)), ((acc ++ l).map Prod.fst).Nodup →
      l.foldl (fun a kv => objSet a kv.1 kv.2) acc = acc ++ l
  | [], acc, _ => by simp
  | kv :: rest, acc, hnd => by
    have hk : kv.1 ∉ acc.map Prod.fst := by
      rw [List.map_append] at hnd
      intro hmem
      exact (List.nodup_append.mp hnd).2.2 hmem
        (by rw [List.map_cons]; exact List.mem_cons_self _ _)
    have hnd2 : (((acc ++ [kv]) ++ rest).map Prod.fst).Nodup := by
      rw [List.append_assoc, List.singleton_append]
      exact hnd
    rw [List.foldl_cons, objSet_of_not_mem kv.1 kv.2 acc hk]
    rw [show ((kv.1, kv.2) : String × α) = kv from rfl]
    rw [foldl_objSet_of_nodup rest (acc ++ [kv]) hnd2]
    rw [List.append_assoc, List.singleton_append]

/-- `Object.fromEntries` of a duplicate-free entry list is the list
itself. -/
lemma objFromEntries_of_nodup {α : Type} (l : List (String × α))
    (hnd : (l.map Prod.fst).Nodup) : objFromEntries l = l := by
  have h := foldl_objSet_of_nodup l [] (by simpa using hnd)
  simpa [objFromEntries] using h

/-- Dropping `undefined` values keeps the key sequence a sublist. -/
lemma cfFilteredParams_map_fst_sublist (params : List (String × Option String)) :
    List.Sublist ((cfFilteredParams params).map Prod.fst) (params.map Prod.fst) := by
  induction params with
  | nil => simp [cfFilteredParams]
  | cons kv rest ih =>
    rcases kv with ⟨k, v⟩
    cases v with
    | none => simpa [cfFilteredParams, List.filterMap_cons] using ih.cons k
    | some s => simpa [cfFilteredParams, List.filterMap_cons] using ih.cons₂ k

/-- The merged `baseParams` object keeps duplicate-free keys. -/
lemma cfBaseParams_nodup_keys (params : List (String × Option String))
    (apiKey : String) (timeSec : Int) (hnd : (params.map Prod.fst).Nodup) :
    ((cfBaseParams params apiKey timeSec).map Prod.fst).Nodup := by
  have hnd1 : ((cfFilteredParams params).map Prod.fst).Nodup :=
    hnd.sublist (cfFilteredParams_map_fst_sublist params)
  unfold cfBaseParams
  rw [objFromEntries_of_nodup _ hnd1]
  exact objSet_nodup_keys _ _ _ (objSet_nodup_keys _ _ _ hnd1)

/-- Permuting a duplicate-free parameter mapping permutes the merged
`baseParams` object. -/
lemma cfBaseParams_perm {ps₁ ps₂ : List (String × Option String)}
    (apiKey : String) (timeSec : Int)
    (hnd : (ps₁.map Prod.fst).Nodup) (p : ps₁.Perm ps₂) :
    (cfBaseParams ps₁ apiKey timeSec).Perm (cfBaseParams ps₂ apiKey timeSec) := by
  have pf : (cfFilteredParams ps₁).Perm (cfFilteredParams ps₂) := p.filterMap _
  have hnd1 : ((cfFilteredParams ps₁).map Prod.fst).Nodup :=
    hnd.sublist (cfFilteredParams_map_fst_sublist ps₁)
  have hnd2 : ((cfFilteredParams ps₂).map Prod.fst).Nodup :=
    (pf.map Prod.fst).nodup_iff.mp hnd1
  unfold cfBaseParams
  rw [objFromEntries_of_nodup _ hnd1, objFromEntries_of_nodup _ hnd2]
  exact objSet_perm _ _ (objSet_nodup_keys _ _ _ hnd1) (objSet_perm _ _ hnd1 pf)

/-- Permuting a duplicate-free parameter mapping leaves the sorted
entry list unchanged: the comparator order is antisymmetric, total and
transitive, so the sorted permutation is unique. -/
lemma cfSortedParams_perm_eq {ps₁ ps₂ : List (String × Option String)}
    (apiKey : String) (timeSec : Int)
    (hnd : (ps₁.map Prod.fst).Nodup) (p : ps₁.Perm ps₂) :
    cfSortedParams ps₁ apiKey timeSec = cfSortedParams ps₂ apiKey timeSec := by
  unfold cfSortedParams
  have hperm : (List.insertionSort entryLE (cfBaseParams ps₁ apiKey timeSec)).Perm
      (List.insertionSort entryLE (cfBaseParams ps₂ apiKey timeSec)) :=
    (List.perm_insertionSort entryLE _).trans
      ((cfBaseParams_perm apiKey timeSec hnd p).trans
        (List.perm_insertionSort entryLE _).symm)
  exact List.eq_of_perm_of_sorted hperm
    (List.sorted_insertionSort entryLE _) (List.sorted_insertionSort entryLE _)

/-- C5: for every method, parameter mapping, nonce, timestamp and
secret (credentials present), the signer emits the URL
`{base}/{method}?{query}&apiSig={token}` where the token is
`{nonce}{hash(sigBase)}` for the 512-bit hex-digest primitive `hash`,
the signature base is
`{nonce}/{method}?{sorted k=v pairs, unencoded, &-joined}#{secret}`,
the sorted entry list really is sorted by the comparator, and the
unencoded pair sequence of the base mirrors the encoded query's pair
sequence: both render the same sorted list in the same order. -/
theorem signer_base_and_token_structure :
    ∀ (hash : String → String) (apiKey apiSecret : String) (timeSec : Int)
      (nonce methodName : String) (params : List (String × Option String)),
      apiKey ≠ "" → apiSecret ≠ "" →
      signCfRequest hash apiKey apiSecret timeSec nonce methodName params =
        Except.ok ("https://codeforces.com/api/" ++ methodName ++ "?" ++
          cfQuery params apiKey timeSec ++ "&apiSig=" ++
          cfApiSig hash methodName params apiKey apiSecret timeSec nonce) ∧
      cfApiSig hash methodName params apiKey apiSecret timeSec nonce =
        nonce ++ hash (cfSigBase methodName params apiKey apiSecret timeSec nonce) ∧
      cfSigBase methodName params apiKey apiSecret timeSec nonce =
        nonce ++ "/" ++ methodName ++ "?" ++
          String.intercalate ("&")
            ((cfSortedParams params apiKey timeSec).map (fun kv => kv.1 ++ "=" ++ kv.2)) ++
          "#" ++ apiSecret ∧
      List.Sorted entryLE (cfSortedParams params apiKey timeSec) ∧
      cfQuery params apiKey timeSec =
        String.intercalate ("&")
          ((cfSortedParams params apiKey timeSec).map
            (fun kv => kv.1 ++ "=" ++ encodeURIComponent kv.2)) := by
  intro hash k s t n m ps hk hs
  refine ⟨?_, rfl, rfl, ?_, rfl⟩
  · unfold signCfRequest
    rw [if_neg (by push_neg; exact ⟨hk, hs⟩)]
  · exact List.sorted_insertionSort entryLE _

/-- Witness for C5 at a concrete call. -/
theorem signer_base_and_token_structure_witness :
    (("KEY" : String) ≠ "") ∧ (("SECRET" : String) ≠ "") ∧
    signCfRequest (fun _ => "d1") ("KEY") ("SECRET") 100 ("abc123") ("user.info")
        [("handles", some ("tourist"))] =
      Except.ok ("https://codeforces.com/api/" ++ "user.info" ++ "?" ++
        cfQuery [("handles", some ("tourist"))] ("KEY") 100 ++ "&apiSig=" ++
        cfApiSig (fun _ => "d1") ("user.info") [("handles", some ("tourist"))]
          ("KEY") ("SECRET") 100 ("abc123")) :=
  ⟨by decide, by decide,
    (signer_base_and_token_structure (fun _ => "d1") ("KEY") ("SECRET") 100 ("abc123")
      ("user.info") [("handles", some ("tourist"))] (by decide) (by decide)).1⟩

/-- C6: signing the same duplicate-free key/value pairs in any
insertion order with the same method, timestamp and nonce yields the
identical sorted entry list, query string, signature token and URL; the
comparator order is total. -/
theorem signer_order_insensitive :
    ∀ (hash : String → String) (apiKey apiSecret : String) (timeSec : Int)
      (nonce methodName : String) (ps₁ ps₂ : List (String × Option String)),
      (ps₁.map Prod.fst).Nodup → ps₁.Perm ps₂ →
      (∀ a b : String × String, entryLE a b ∨ entryLE b a) ∧
      cfSortedParams ps₁ apiKey timeSec = cfSortedParams ps₂ apiKey timeSec ∧
      cfQuery ps₁ apiKey timeSec = cfQuery ps₂ apiKey timeSec ∧
      cfApiSig hash methodName ps₁ apiKey apiSecret timeSec nonce =
        cfApiSig hash methodName ps₂ apiKey apiSecret timeSec nonce ∧
      signCfRequest hash apiKey apiSecret timeSec nonce methodName ps₁ =
        signCfRequest hash apiKey apiSecret timeSec nonce methodName ps₂ := by
  intro hash k s t n m ps₁ ps₂ hnd p
  have hsort := cfSortedParams_perm_eq k t hnd p
  refine ⟨fun a b => total_of entryLE a b, hsort, ?_, ?_, ?_⟩
  · unfold cfQuery
    rw [hsort]
  · unfold cfApiSig cfSigBase
    rw [hsort]
  · unfold signCfRequest cfQuery cfApiSig cfSigBase
    rw [hsort]

/-- Parameter mapping of the C6 witness, one insertion order. -/
def c6Params1 : List (String × Option String) :=
  [("handles", some ("tourist")), ("from", some ("1"))]

/-- Parameter mapping of the C6 witness, the other insertion order. -/
def c6Params2 : List (String × Option String) :=
  [("from", some ("1")), ("handles", some ("tourist"))]

/-- Witness for C6 at two concrete insertion orders of the same
mapping. -/
theorem signer_order_insensitive_witness :
    (c6Params1.map Prod.fst).Nodup ∧ c6Params1.Perm c6Params2 ∧
    signCfRequest (fun _ => "d1") ("KEY") ("SECRET") 100 ("abc123") ("user.info") c6Params1 =
      signCfRequest (fun _ => "d1") ("KEY") ("SECRET") 100 ("abc123") ("user.info") c6Params2 :=
  ⟨by decide, by decide,
    (signer_order_insensitive (fun _ => "d1") ("KEY") ("SECRET") 100 ("abc123") ("user.info")
      c6Params1 c6Params2 (by decide) (by decide)).2.2.2.2⟩

end CfNlp
